import Mathlib

/-!
Verification of the claude-memory-server knowledge-graph store
(`src/server.js`): a shallow embedding of its data model, its five
operations, its JSON persistence and its request dispatcher, together
with theorems settling the specification claims.

Modelling conventions:
* JS objects used as string-keyed maps (`this.memory.entities`) are
  insertion-ordered association lists; `obj[k] = v` updates in place
  when the key exists and appends otherwise, as in JS.
* `new Date().toISOString()` is an explicit `now : String` parameter.
* `JSON.stringify` / `JSON.parse` are modelled at the JSON-tree level
  (`Json` below); the text layer is a bijection on such trees.
* `async` I/O outcomes (file read, file write) are explicit parameters
  (`ReadOutcome`, `SaveOutcome`).
-/

namespace MemorySrv

/-- A JSON value as produced by `JSON.parse`.  Only the constructors the
persisted shape uses are needed for the claims; the unused root
`observations` object keeps raw `Json` fields. -/
inductive Json where
  | str : String → Json
  | arr : List Json → Json
  | obj : List (String × Json) → Json

/-- An entity record as stored in `this.memory.entities[name]`
(server.js lines 222-227). -/
structure Entity where
  name : String
  entityType : String
  observations : List String
  createdAt : String
  deriving DecidableEq

/-- A relation record as pushed onto `this.memory.relations`
(server.js lines 236-239). -/
structure Relation where
  «from» : String
  «to» : String
  relationType : String
  createdAt : String
  deriving DecidableEq

/-- The in-memory graph `this.memory = { entities: {}, relations: [],
observations: {} }` (server.js line 18).  `entities` is an
insertion-ordered assoc list modelling the JS object; the root
`observations` object is never read or written by any operation and so
keeps raw JSON fields. -/
structure Graph where
  entities : List (String × Entity)
  relations : List Relation
  observations : List (String × Json)

/-- The constructor's initial memory `{ entities: {}, relations: [],
observations: {} }`. -/
def emptyGraph : Graph := { entities := [], relations := [], observations := [] }

/-- JS property read `m[k]` on an object-as-map: first binding wins
(JS objects have no duplicate keys). -/
def getKey : List (String × Entity) → String → Option Entity
  | [], _ => none
  | p :: rest, k => if p.1 = k then some p.2 else getKey rest k

/-- JS property write `m[k] = v`: replace in place when the key exists,
append otherwise (JS insertion order). -/
def setKey : List (String × Entity) → String → Entity → List (String × Entity)
  | [], k, v => [(k, v)]
  | p :: rest, k, v => if p.1 = k then (k, v) :: rest else p :: setKey rest k v

/-- One element of the `entities` argument of `create_entities`.
`observations` is `Option`al: `none` models an absent/falsy field,
which `observations || []` (line 225) turns into `[]`. -/
structure EntityInput where
  name : String
  entityType : String
  observations : Option (List String)
  deriving DecidableEq

/-- One element of the `relations` argument of `create_relations`. -/
structure RelationInput where
  «from» : String
  «to» : String
  relationType : String
  deriving DecidableEq

/-- One element of the `observations` argument of `add_observations`. -/
structure ObservationInput where
  entityName : String
  contents : List String
  deriving DecidableEq

/-- The entity object built by `createEntities` for one input item
(server.js lines 222-227): every field comes from the item and the
current time only. -/
def freshEntity (e : EntityInput) (now : String) : Entity :=
  { name := e.name, entityType := e.entityType,
    observations := e.observations.getD [], createdAt := now }

/-- One iteration of the `createEntities` loop (lines 219-228):
`this.memory.entities[name] = {...}`. -/
def applyCreateEntity (g : Graph) (e : EntityInput) (now : String) : Graph :=
  { g with entities := setKey g.entities e.name (freshEntity e now) }

/-- `createEntities` (lines 218-232), graph effect of the whole batch. -/
def createEntitiesGraph (g : Graph) (inputs : List EntityInput) (now : String) : Graph :=
  inputs.foldl (fun acc e => applyCreateEntity acc e now) g

/-- The string returned by `createEntities` (line 231). -/
def createEntitiesMsg (inputs : List EntityInput) : String :=
  "Created " ++ toString inputs.length ++ " entities successfully"

/-- `createRelations` (lines 234-244), graph effect: append each
relation stamped with the creation time, in input order. -/
def createRelationsGraph (g : Graph) (inputs : List RelationInput) (now : String) : Graph :=
  { g with relations := g.relations ++ inputs.map (fun r =>
      { «from» := r.«from», «to» := r.«to», relationType := r.relationType,
        createdAt := now }) }

/-- The string returned by `createRelations` (line 243). -/
def createRelationsMsg (inputs : List RelationInput) : String :=
  "Created " ++ toString inputs.length ++ " relations successfully"

/-- One iteration of the `addObservations` loop (lines 247-253): push
the contents onto the entity's observations when the entity exists,
otherwise do nothing. -/
def applyAddObservation (g : Graph) (o : ObservationInput) : Graph :=
  match getKey g.entities o.entityName with
  | some e =>
      let e2 : Entity := { e with observations := e.observations ++ o.contents }
      { g with entities := setKey g.entities o.entityName e2 }
  | none => g

/-- `addObservations` (lines 246-257), graph effect of the whole batch. -/
def addObservationsGraph (g : Graph) (inputs : List ObservationInput) : Graph :=
  inputs.foldl applyAddObservation g

/-- The string returned by `addObservations` (line 256): the count is
the input length, skipped items included. -/
def addObservationsMsg (inputs : List ObservationInput) : String :=
  "Added observations to " ++ toString inputs.length ++ " entities successfully"

/-- JS `String.prototype.toLowerCase`, character by character
(identical to it on the ASCII strings of the examples). -/
def jsToLower (s : String) : String := String.mk (s.data.map Char.toLower)

/-- JS `String.prototype.includes` on char lists: `hasSub hay needle`
is true when `needle` occurs contiguously inside `hay`. -/
def hasSub : List Char → List Char → Bool
  | _, [] => true
  | [], _ :: _ => false
  | a :: t, c :: cs => (c :: cs).isPrefixOf (a :: t) || hasSub t (c :: cs)

/-- JS `s.includes(q)`. -/
def strIncludes (s q : String) : Bool := hasSub s.data q.data

/-- The entity test of the `searchNodes` loop (lines 265-267), applied
to an entry of `Object.entries(this.memory.entities)`; `lq` is the
already-lowercased query. -/
def entityMatch (lq : String) (name : String) (e : Entity) : Bool :=
  strIncludes (jsToLower name) lq || strIncludes (jsToLower e.entityType) lq ||
    e.observations.any (fun o => strIncludes (jsToLower o) lq)

/-- The relation test of the `searchNodes` loop (lines 274-276). -/
def relationMatch (lq : String) (r : Relation) : Bool :=
  strIncludes (jsToLower r.«from») lq || strIncludes (jsToLower r.«to») lq ||
    strIncludes (jsToLower r.relationType) lq

/-- One element of the `results` array of `searchNodes`: either
`{type:'entity', ...entity}` or `{type:'relation', ...relation}`. -/
inductive SearchResult where
  | entity : Entity → SearchResult
  | relation : Relation → SearchResult
  deriving DecidableEq

/-- `searchNodes` (lines 259-282, full variant): entity loop in map
order, then relation loop in sequence order. -/
def searchNodes (g : Graph) (query : String) : List SearchResult :=
  let lq := jsToLower query
  (g.entities.filter (fun p => entityMatch lq p.1 p.2)).map
      (fun p => SearchResult.entity p.2)
    ++ (g.relations.filter (fun r => relationMatch lq r)).map SearchResult.relation

/-- `searchNodes` of the reduced variant (lines 458-477): entity loop
only, no relation search. -/
def searchNodesSimple (g : Graph) (query : String) : List SearchResult :=
  let lq := jsToLower query
  (g.entities.filter (fun p => entityMatch lq p.1 p.2)).map
      (fun p => SearchResult.entity p.2)

/-- The `stats` object computed by `readGraph` (lines 285-291). -/
structure GraphStats where
  entities : Nat
  relations : Nat
  totalObservations : Nat
  deriving DecidableEq

/-- `readGraph` statistics (lines 285-291): key count, relation count,
and a `reduce` summing observation-list lengths. -/
def readGraphStats (g : Graph) : GraphStats :=
  { entities := g.entities.length,
    relations := g.relations.length,
    totalObservations := g.entities.foldl
      (fun sum p => sum + p.2.observations.length) 0 }

/-- `readGraph` (lines 284-294): the statistics plus the verbatim
snapshot `this.memory` serialized into the response text. -/
def readGraph (g : Graph) : GraphStats × Graph := (readGraphStats g, g)

/-! ### Persistence: `JSON.stringify(this.memory, null, 2)` and
`JSON.parse`, at the JSON-tree level. -/

/-- The JSON object `JSON.stringify` produces for one entity
(insertion order of lines 222-227). -/
def entityToJson (e : Entity) : Json :=
  Json.obj [("name", Json.str e.name), ("entityType", Json.str e.entityType),
    ("observations", Json.arr (e.observations.map Json.str)),
    ("createdAt", Json.str e.createdAt)]

/-- The JSON object `JSON.stringify` produces for one relation
(insertion order of lines 236-239). -/
def relationToJson (r : Relation) : Json :=
  Json.obj [("from", Json.str r.«from»), ("to", Json.str r.«to»),
    ("relationType", Json.str r.relationType),
    ("createdAt", Json.str r.createdAt)]

/-- The JSON tree `saveMemory` writes (line 49): the whole memory
object, keys in insertion order of line 18. -/
def graphToJson (g : Graph) : Json :=
  Json.obj [
    ("entities", Json.obj (g.entities.map (fun p => (p.1, entityToJson p.2)))),
    ("relations", Json.arr (g.relations.map relationToJson)),
    ("observations", Json.obj g.observations)]

/-- JS property read on a parsed JSON object. -/
def lookupField : List (String × Json) → String → Option Json
  | [], _ => none
  | p :: rest, k => if p.1 = k then some p.2 else lookupField rest k

/-- Reads a parsed JSON array as a list of strings. -/
def decodeStrList : List Json → Option (List String)
  | [] => some []
  | Json.str s :: rest => (decodeStrList rest).map (fun l => s :: l)
  | _ => none

/-- Reads a parsed JSON value back as an `Entity` record. -/
def entityOfJson : Json → Option Entity
  | Json.obj fields =>
    match lookupField fields "name", lookupField fields "entityType",
        lookupField fields "observations", lookupField fields "createdAt" with
    | some (Json.str n), some (Json.str t), some (Json.arr os),
        some (Json.str c) =>
      (decodeStrList os).map (fun obs =>
        { name := n, entityType := t, observations := obs, createdAt := c })
    | _, _, _, _ => none
  | _ => none

/-- Reads a parsed JSON value back as a `Relation` record. -/
def relationOfJson : Json → Option Relation
  | Json.obj fields =>
    match lookupField fields "from", lookupField fields "to",
        lookupField fields "relationType", lookupField fields "createdAt" with
    | some (Json.str f), some (Json.str t), some (Json.str rt),
        some (Json.str c) =>
      some { «from» := f, «to» := t, relationType := rt, createdAt := c }
    | _, _, _, _ => none
  | _ => none

/-- Reads the fields of a parsed `entities` object back as the
entity map. -/
def decodeEntities : List (String × Json) → Option (List (String × Entity))
  | [] => some []
  | p :: rest =>
    match entityOfJson p.2, decodeEntities rest with
    | some e, some es => some ((p.1, e) :: es)
    | _, _ => none

/-- Reads the elements of a parsed `relations` array back as the
relation sequence. -/
def decodeRelations : List Json → Option (List Relation)
  | [] => some []
  | j :: rest =>
    match relationOfJson j, decodeRelations rest with
    | some r, some rs => some (r :: rs)
    | _, _ => none

/-- Reads a parsed JSON value back as a `Graph` when it has the
persisted shape. -/
def graphOfJson : Json → Option Graph
  | Json.obj fields =>
    match lookupField fields "entities", lookupField fields "relations",
        lookupField fields "observations" with
    | some (Json.obj es), some (Json.arr rs), some (Json.obj obs) =>
      match decodeEntities es, decodeRelations rs with
      | some es2, some rs2 =>
        some { entities := es2, relations := rs2, observations := obs }
      | _, _ => none
    | _, _, _ => none
  | _ => none

/-! ### I/O model: `loadMemory` and `saveMemory` with explicit outcomes. -/

/-- Outcome of the `fs.writeFile` inside `saveMemory` (lines 47-54). -/
inductive SaveOutcome where
  | ok : SaveOutcome
  | ioError : SaveOutcome

/-- Outcome of `fs.readFile` + `JSON.parse` inside `loadMemory`
(lines 36-45): `ok j` when both succeed with parsed value `j`;
`failure` on a missing file, an I/O error or invalid JSON. -/
inductive ReadOutcome where
  | ok : Json → ReadOutcome
  | failure : ReadOutcome

/-- `saveMemory` (lines 47-54): on write success the file now holds the
serialized memory; on an I/O error the exception is caught and the file
keeps its previous content.  Either way nothing is raised to the
caller. -/
def saveMemory (g : Graph) (file : Option Json) : SaveOutcome → Option Json
  | SaveOutcome.ok => some (graphToJson g)
  | SaveOutcome.ioError => file

/-- `loadMemory` (lines 36-45).  Result: the in-memory value after the
call (`this.memory = JSON.parse(data)` verbatim on success, the
constructor's empty graph otherwise, both as JSON trees) and whether
`saveMemory` was triggered (the catch branch, line 43). -/
def loadMemory : ReadOutcome → Json × Bool
  | ReadOutcome.ok j => (j, false)
  | ReadOutcome.failure => (graphToJson emptyGraph, true)

/-- The three mutating tool operations, with their parsed arguments. -/
inductive Mutation where
  | create_entities : List EntityInput → Mutation
  | create_relations : List RelationInput → Mutation
  | add_observations : List ObservationInput → Mutation

/-- The in-memory effect and the returned text of one mutation, before
its `saveMemory` call. -/
def applyMutation (g : Graph) (m : Mutation) (now : String) : Graph × String :=
  match m with
  | Mutation.create_entities xs => (createEntitiesGraph g xs now, createEntitiesMsg xs)
  | Mutation.create_relations xs => (createRelationsGraph g xs now, createRelationsMsg xs)
  | Mutation.add_observations xs => (addObservationsGraph g xs, addObservationsMsg xs)

/-- A whole mutating tool call: mutate in memory, then `await
this.saveMemory()` with outcome `s`.  Result: new memory, response
text, file content afterwards. -/
def runMutation (g : Graph) (file : Option Json) (m : Mutation) (now : String)
    (s : SaveOutcome) : Graph × String × Option Json :=
  let r := applyMutation g m now
  (r.1, r.2, saveMemory r.1 file s)

/-! ### Dispatcher: the `CallToolRequestSchema` handler (lines 153-187)
and `SimpleMemoryServer.handleRequest` (lines 355-420). -/

/-- A tool-call request: the tool `name` and the argument fields of
`request.params.arguments`; `none` models an absent (undefined)
field. -/
structure ToolRequest where
  name : String
  entities : Option (List EntityInput)
  relations : Option (List RelationInput)
  observations : Option (List ObservationInput)
  query : Option String

/-- What one arm of the handler's `switch` produces before the
`try`/`catch` wrapper: a new memory, a response text and whether the
arm called `saveMemory` — or a thrown error message (`default` arm,
or a TypeError from touching an undefined argument field). -/
inductive DispatchResult where
  | ok : Graph → String → Bool → DispatchResult
  | thrown : String → DispatchResult

/-- The serialized-results response text of `searchNodes` (line 281),
with the JSON rendering of the matches abstracted to its length. -/
def searchNodesMsg (g : Graph) (q : String) : String :=
  "Found " ++ toString (searchNodes g q).length ++ " matching nodes"

/-- The response text of `readGraph` (line 293), abstracted to its
statistics. -/
def readGraphMsg (g : Graph) : String :=
  "Knowledge Graph Contents: " ++ toString (readGraphStats g).entities ++ " "
    ++ toString (readGraphStats g).relations ++ " "
    ++ toString (readGraphStats g).totalObservations

/-- The `switch (name)` of the `CallToolRequestSchema` handler
(lines 158-176).  Absent argument fields throw a TypeError inside the
corresponding method, the unknown-name `default` arm throws
`Unknown tool: ` + name (line 175). -/
def dispatch (g : Graph) (req : ToolRequest) (now : String) : DispatchResult :=
  if req.name = "create_entities" then
    match req.entities with
    | some xs => DispatchResult.ok (createEntitiesGraph g xs now) (createEntitiesMsg xs) true
    | none => DispatchResult.thrown "undefined is not iterable"
  else if req.name = "create_relations" then
    match req.relations with
    | some xs => DispatchResult.ok (createRelationsGraph g xs now) (createRelationsMsg xs) true
    | none => DispatchResult.thrown "undefined is not iterable"
  else if req.name = "add_observations" then
    match req.observations with
    | some xs => DispatchResult.ok (addObservationsGraph g xs) (addObservationsMsg xs) true
    | none => DispatchResult.thrown "undefined is not iterable"
  else if req.name = "search_nodes" then
    match req.query with
    | some q => DispatchResult.ok g (searchNodesMsg g q) false
    | none => DispatchResult.thrown "Cannot read properties of undefined"
  else if req.name = "read_graph" then
    DispatchResult.ok g (readGraphMsg g) false
  else
    DispatchResult.thrown ("Unknown tool: " ++ req.name)

/-- The whole `CallToolRequestSchema` handler (lines 153-187): the
`try`/`catch` turns any thrown error into a normal text response
`Error executing ` + name + `: ` + message, leaving the memory as it
was and the run loop alive.  Result: memory afterwards, response text,
whether a save was triggered. -/
def callToolHandler (g : Graph) (req : ToolRequest) (now : String) :
    Graph × String × Bool :=
  match dispatch g req now with
  | DispatchResult.ok g2 text saved => (g2, text, saved)
  | DispatchResult.thrown msg =>
    (g, "Error executing " ++ req.name ++ ": " ++ msg, false)

/-- `SimpleMemoryServer.handleRequest` (lines 355-420), restricted to
its method dispatch: the `default` arm throws `Unknown method: ` +
method (line 415), and the surrounding `try`/`catch` (lines 417-419)
returns `{ error: { message } }` instead of propagating.  `true` marks
an error response. -/
def handleRequestSimple (method : String) : String × Bool :=
  if method = "tools/list" then ("tools", false)
  else if method = "tools/call" then ("call", false)
  else if method = "initialize" then ("initialize", false)
  else ("Unknown method: " ++ method, true)

/-! ### Spec-side search predicates (from the spec's words, for the
refinement claim about `searchNodes`) -/

/-- Spec wording: an entity matches when the lowercased query is a
substring of the lowercased entity name, entity type, or some
observation string. -/
def SpecEntityMatch (q n : String) (e : Entity) : Prop :=
  (jsToLower q).data <:+: (jsToLower n).data
    ∨ (jsToLower q).data <:+: (jsToLower e.entityType).data
    ∨ ∃ o ∈ e.observations, (jsToLower q).data <:+: (jsToLower o).data

/-- Spec wording: a relation matches when the lowercased query is a
substring of the lowercased `from`, `to`, or `relationType`. -/
def SpecRelationMatch (q : String) (r : Relation) : Prop :=
  (jsToLower q).data <:+: (jsToLower r.«from»).data
    ∨ (jsToLower q).data <:+: (jsToLower r.«to»).data
    ∨ (jsToLower q).data <:+: (jsToLower r.relationType).data

instance (q n : String) (e : Entity) : Decidable (SpecEntityMatch q n e) := by
  unfold SpecEntityMatch; infer_instance

instance (q : String) (r : Relation) : Decidable (SpecRelationMatch q r) := by
  unfold SpecRelationMatch; infer_instance

/-! ### Concrete values used to instantiate the theorems -/

/-- The spec's example entity `A` with one observation `x`. -/
def entA : Entity :=
  { name := "A", entityType := "T1", observations := ["x"], createdAt := "t1" }

/-- A graph holding just `entA`. -/
def graphA : Graph :=
  { entities := [("A", entA)], relations := [], observations := [] }

/-- The spec's example re-creation input for name `A`. -/
def inpA2 : EntityInput :=
  { name := "A", entityType := "T2", observations := some ["y"] }

/-- An observation item aimed at the existing entity `A`. -/
def obsZ : ObservationInput := { entityName := "A", contents := ["z"] }

/-- An observation item aimed at a nonexistent entity `B`. -/
def obsMissing : ObservationInput := { entityName := "B", contents := ["z"] }

/-- A relation input from `A` to `B`. -/
def relInpAB : RelationInput := { «from» := "A", «to» := "B", relationType := "knows" }

/-- The spec's case-sensitivity example entity, named `FOO`. -/
def entFOO : Entity :=
  { name := "FOO", entityType := "person", observations := [], createdAt := "t0" }

/-- A graph holding just `entFOO`. -/
def graphFOO : Graph :=
  { entities := [("FOO", entFOO)], relations := [], observations := [] }

/-- A relation used to build the statistics example. -/
def relE : Relation :=
  { «from» := "E1", «to» := "E2", relationType := "likes", createdAt := "t0" }

/-- The spec's statistics example: 2 entities holding 3 and 1
observations, 4 relations. -/
def graphStatsEx : Graph :=
  { entities :=
      [("E1", { name := "E1", entityType := "T", observations := ["o1", "o2", "o3"],
                createdAt := "t0" }),
       ("E2", { name := "E2", entityType := "T", observations := ["o4"],
                createdAt := "t0" })],
    relations := [relE, relE, relE, relE], observations := [] }

/-! ### Map lemmas -/

theorem getKey_setKey_self (m : List (String × Entity)) (k : String) (v : Entity) :
    getKey (setKey m k v) k = some v := by
  induction m with
  | nil => simp [setKey, getKey]
  | cons p rest ih =>
    by_cases h : p.1 = k
    · simp [setKey, getKey, h]
    · simp [setKey, getKey, h, ih]

theorem getKey_setKey_ne (m : List (String × Entity)) (k k' : String) (v : Entity)
    (h : k' ≠ k) : getKey (setKey m k v) k' = getKey m k' := by
  induction m with
  | nil => simp [setKey, getKey, h.symm]
  | cons p rest ih =>
    by_cases hp : p.1 = k
    · subst hp
      simp [setKey, getKey, h.symm]
    · by_cases hp' : p.1 = k'
      · simp [setKey, getKey, hp, hp', h]
      · simp [setKey, getKey, hp, hp', h, ih]

theorem createEntitiesGraph_cons (g : Graph) (i : EntityInput)
    (rest : List EntityInput) (now : String) :
    createEntitiesGraph g (i :: rest) now
      = createEntitiesGraph (applyCreateEntity g i now) rest now := rfl

theorem getKey_createEntitiesGraph_of_not_named (inputs : List EntityInput)
    (n now : String) :
    ∀ g : Graph, (∀ j ∈ inputs, j.name ≠ n) →
      getKey (createEntitiesGraph g inputs now).entities n = getKey g.entities n := by
  induction inputs with
  | nil => intro g _; rfl
  | cons a rest ih =>
    intro g h
    rw [createEntitiesGraph_cons,
      ih _ (fun j hj => h j (List.mem_cons_of_mem _ hj))]
    exact getKey_setKey_ne _ _ _ _ (fun hn => h a (List.mem_cons_self _ _) hn.symm)

theorem getKey_createEntitiesGraph_getLast (inputs : List EntityInput)
    (n now : String) (i : EntityInput) :
    ∀ g : Graph, (inputs.filter (fun j => j.name == n)).getLast? = some i →
      getKey (createEntitiesGraph g inputs now).entities n = some (freshEntity i now) := by
  induction inputs with
  | nil => intro g h; simp at h
  | cons a rest ih =>
    intro g h
    rw [List.filter_cons] at h
    by_cases ha : a.name = n
    · rw [if_pos (by simpa using ha)] at h
      cases hfl : rest.filter (fun j => j.name == n) with
      | nil =>
        rw [hfl] at h
        simp at h
        subst h
        have hnone : ∀ j ∈ rest, j.name ≠ n := by
          intro j hj
          simpa using List.filter_eq_nil_iff.mp hfl j hj
        rw [createEntitiesGraph_cons,
          getKey_createEntitiesGraph_of_not_named rest n now _ hnone]
        show getKey (setKey g.entities a.name (freshEntity a now)) n = _
        rw [ha, getKey_setKey_self]
      | cons b fl =>
        rw [hfl, List.getLast?_cons_cons] at h
        rw [createEntitiesGraph_cons]
        exact ih _ (by rw [hfl]; exact h)
    · rw [if_neg (by simpa using ha)] at h
      rw [createEntitiesGraph_cons]
      exact ih _ h

/-- C1: when the input list of `createEntities` contains an item whose
name equals an existing entity's name, the resulting graph maps that
name to a fresh entity built only from the (last such) input item —
`entityType` and `observations` from the item, `observations`
defaulting to `[]` when the field is absent, `createdAt` the new
timestamp; the prior entity `old` appears nowhere in the result, so its
observations and `createdAt` are discarded, never merged. -/
theorem C1_createEntities_replaces (g : Graph) (inputs : List EntityInput)
    (now n : String) (old : Entity) (i : EntityInput)
    (hold : getKey g.entities n = some old)
    (hlast : (inputs.filter (fun j => j.name == n)).getLast? = some i) :
    getKey (createEntitiesGraph g inputs now).entities n
      = some { name := i.name, entityType := i.entityType,
               observations := i.observations.getD [], createdAt := now } :=
  getKey_createEntitiesGraph_getLast inputs n now i g hlast

/-- C1 witness: the spec's own example — entity `A` with observations
`["x"]` re-created as type `T2` with observations `["y"]` ends up with
observations exactly `["y"]`. -/
theorem C1_witness :
    getKey (createEntitiesGraph graphA [inpA2] "t2").entities "A"
      = some { name := "A", entityType := "T2", observations := ["y"],
               createdAt := "t2" } :=
  C1_createEntities_replaces graphA [inpA2] "t2" "A" entA inpA2
    (by rfl) (by rfl)

/-- A convenient closed form of a JS property write. -/
theorem getKey_setKey (m : List (String × Entity)) (k n : String) (v : Entity) :
    getKey (setKey m k v) n = if n = k then some v else getKey m n := by
  by_cases h : n = k
  · subst h; simp [getKey_setKey_self]
  · simp [h, getKey_setKey_ne m k n v h]

/-- C2: behaviour of `addObservations`.  Per item: if the entity
exists, its observations grow by `contents` in order (all other keys,
the relations and the root observations untouched); if it does not
exist, the whole graph is literally unchanged.  The batch is the left
fold of the per-item step, and the reported success count is the input
length, skipped items included. -/
theorem C2_addObservations_behavior (g : Graph) (o : ObservationInput)
    (inputs : List ObservationInput) :
    (∀ e, getKey g.entities o.entityName = some e →
        getKey (applyAddObservation g o).entities o.entityName
          = some { e with observations := e.observations ++ o.contents }
        ∧ (∀ n, n ≠ o.entityName →
            getKey (applyAddObservation g o).entities n = getKey g.entities n)
        ∧ (applyAddObservation g o).relations = g.relations
        ∧ (applyAddObservation g o).observations = g.observations)
    ∧ (getKey g.entities o.entityName = none → applyAddObservation g o = g)
    ∧ addObservationsGraph g (o :: inputs)
        = addObservationsGraph (applyAddObservation g o) inputs
    ∧ addObservationsMsg inputs
        = "Added observations to " ++ toString inputs.length
            ++ " entities successfully" := by
  refine ⟨?_, ?_, rfl, rfl⟩
  · intro e he
    refine ⟨?_, ?_, ?_, ?_⟩
    · simp [applyAddObservation, he, getKey_setKey_self]
    · intro n hn
      simp [applyAddObservation, he, getKey_setKey_ne _ _ _ _ hn]
    · simp [applyAddObservation, he]
    · simp [applyAddObservation, he]
  · intro he
    simp [applyAddObservation, he]

/-- C2 witness: on `graphA`, a batch with one applicable item and one
item aimed at the nonexistent `B` appends `z` to `A`, creates no `B`,
and still reports a count of 2. -/
theorem C2_witness :
    getKey (applyAddObservation graphA obsZ).entities "A"
      = some { entA with observations := entA.observations ++ obsZ.contents }
    ∧ applyAddObservation graphA obsMissing = graphA
    ∧ addObservationsMsg [obsZ, obsMissing]
        = "Added observations to " ++ toString ([obsZ, obsMissing].length)
            ++ " entities successfully" :=
  ⟨((C2_addObservations_behavior graphA obsZ []).1 entA (by rfl)).1,
   (C2_addObservations_behavior graphA obsMissing []).2.1 (by rfl),
   (C2_addObservations_behavior graphA obsZ [obsZ, obsMissing]).2.2.2⟩

/-- C3: a failed `saveMemory` after any of the three mutations is
swallowed: the in-memory graph and the returned success text are
identical to the no-failure run, and the file simply keeps its old
content. -/
theorem C3_save_failure_swallowed (g : Graph) (file : Option Json)
    (m : Mutation) (now : String) :
    (runMutation g file m now SaveOutcome.ioError).1
      = (runMutation g file m now SaveOutcome.ok).1
    ∧ (runMutation g file m now SaveOutcome.ioError).2.1
      = (runMutation g file m now SaveOutcome.ok).2.1
    ∧ (runMutation g file m now SaveOutcome.ioError).2.1
      = (applyMutation g m now).2
    ∧ (runMutation g file m now SaveOutcome.ioError).2.2 = file :=
  ⟨rfl, rfl, rfl, rfl⟩

/-- `hasSub` computes list containment. -/
theorem hasSub_iff (hay needle : List Char) :
    hasSub hay needle = true ↔ needle <:+: hay := by
  induction hay with
  | nil =>
    cases needle with
    | nil => simp [hasSub]
    | cons c cs => simp [hasSub]
  | cons a t ih =>
    cases needle with
    | nil => simp [hasSub]
    | cons c cs =>
      rw [List.infix_cons_iff]
      simp [hasSub, List.isPrefixOf_iff_prefix, ih]

/-- `strIncludes` computes string containment. -/
theorem strIncludes_iff (s q : String) :
    strIncludes s q = true ↔ q.data <:+: s.data := hasSub_iff s.data q.data

theorem entityMatch_iff (q n : String) (e : Entity) :
    entityMatch (jsToLower q) n e = true ↔ SpecEntityMatch q n e := by
  simp [entityMatch, SpecEntityMatch, strIncludes_iff, List.any_eq_true,
    or_assoc]

theorem relationMatch_iff (q : String) (r : Relation) :
    relationMatch (jsToLower q) r = true ↔ SpecRelationMatch q r := by
  simp [relationMatch, SpecRelationMatch, strIncludes_iff, or_assoc]

/-- C4: `searchNodes` returns exactly the entities for which the
lowercased query is a substring of the lowercased name, type or some
observation, followed by exactly the relations for which it is a
substring of the lowercased `from`, `to` or `relationType`, both in
graph-iteration order; the reported count is the number of matches; the
reduced variant is the entity part alone; and the entity named `FOO`
is found for query `foo`. -/
theorem C4_searchNodes_spec (g : Graph) (q : String) :
    searchNodes g q
      = (g.entities.filter (fun p => decide (SpecEntityMatch q p.1 p.2))).map
          (fun p => SearchResult.entity p.2)
        ++ (g.relations.filter (fun r => decide (SpecRelationMatch q r))).map
          SearchResult.relation
    ∧ searchNodesSimple g q
      = (g.entities.filter (fun p => decide (SpecEntityMatch q p.1 p.2))).map
          (fun p => SearchResult.entity p.2)
    ∧ searchNodesMsg g q
      = "Found " ++ toString (searchNodes g q).length ++ " matching nodes"
    ∧ searchNodes graphFOO "foo" = [SearchResult.entity entFOO] := by
  have hent : g.entities.filter (fun p => entityMatch (jsToLower q) p.1 p.2)
      = g.entities.filter (fun p => decide (SpecEntityMatch q p.1 p.2)) := by
    apply List.filter_congr
    intro p _
    rw [Bool.eq_iff_iff, entityMatch_iff, decide_eq_true_eq]
  have hrel : g.relations.filter (fun r => relationMatch (jsToLower q) r)
      = g.relations.filter (fun r => decide (SpecRelationMatch q r)) := by
    apply List.filter_congr
    intro r _
    rw [Bool.eq_iff_iff, relationMatch_iff, decide_eq_true_eq]
  refine ⟨?_, ?_, rfl, ?_⟩
  · show (g.entities.filter (fun p => entityMatch (jsToLower q) p.1 p.2)).map
        (fun p => SearchResult.entity p.2)
      ++ (g.relations.filter (fun r => relationMatch (jsToLower q) r)).map
        SearchResult.relation = _
    rw [hent, hrel]
  · show (g.entities.filter (fun p => entityMatch (jsToLower q) p.1 p.2)).map
        (fun p => SearchResult.entity p.2) = _
    rw [hent]
  · decide

/-! ### Persistence round-trip lemmas -/

theorem decodeStrList_map (l : List String) :
    decodeStrList (l.map Json.str) = some l := by
  induction l with
  | nil => rfl
  | cons s rest ih => simp [decodeStrList, ih]

theorem entityOfJson_toJson (e : Entity) :
    entityOfJson (entityToJson e) = some e := by
  simp [entityOfJson, entityToJson, lookupField, decodeStrList_map]

theorem relationOfJson_toJson (r : Relation) :
    relationOfJson (relationToJson r) = some r := by
  simp [relationOfJson, relationToJson, lookupField]

theorem decodeEntities_map (l : List (String × Entity)) :
    decodeEntities (l.map (fun p => (p.1, entityToJson p.2))) = some l := by
  induction l with
  | nil => rfl
  | cons p rest ih => simp [decodeEntities, entityOfJson_toJson, ih]

theorem decodeRelations_map (l : List Relation) :
    decodeRelations (l.map relationToJson) = some l := by
  induction l with
  | nil => rfl
  | cons r rest ih => simp [decodeRelations, relationOfJson_toJson, ih]

theorem graphOfJson_toJson (g : Graph) :
    graphOfJson (graphToJson g) = some g := by
  simp [graphOfJson, graphToJson, lookupField, decodeEntities_map,
    decodeRelations_map]

/-- C6: round-trip through persistence is the identity: decoding the
serialized JSON of any graph yields the graph back field for field
(entity key order, relation order, observation strings and `createdAt`
stamps included); and reloading a just-saved snapshot leaves the
in-memory value identical to what was saved, so saving again writes an
equivalent file. -/
theorem C6_persistence_roundtrip (g : Graph) :
    graphOfJson (graphToJson g) = some g
    ∧ (loadMemory (ReadOutcome.ok (graphToJson g))).1 = graphToJson g
    ∧ (graphOfJson (graphToJson g)).map graphToJson = some (graphToJson g) := by
  refine ⟨graphOfJson_toJson g, rfl, ?_⟩
  rw [graphOfJson_toJson g]
  rfl

/-- C7: any `loadMemory` failure leaves the in-memory graph equal to
the constructor's empty graph and triggers an immediate save, which (on
write success) makes the file hold a snapshot that decodes back to the
empty graph; no caller sees the failure (the result is an ordinary
state, not an error).  On success the parsed tree — any tree, with no
schema validation — becomes the memory verbatim. -/
theorem C7_load_failure_empty (j : Json) (file : Option Json) :
    loadMemory ReadOutcome.failure = (graphToJson emptyGraph, true)
    ∧ saveMemory emptyGraph file SaveOutcome.ok = some (graphToJson emptyGraph)
    ∧ graphOfJson (graphToJson emptyGraph) = some emptyGraph
    ∧ loadMemory (ReadOutcome.ok j) = (j, false)
    ∧ graphOfJson (Json.str "not a graph") = none
    ∧ loadMemory (ReadOutcome.ok (Json.str "not a graph"))
        = (Json.str "not a graph", false) :=
  ⟨rfl, rfl, rfl, rfl, rfl, rfl⟩

/-! ### Statistics -/

theorem foldl_add_obsLength (l : List (String × Entity)) (a : Nat) :
    l.foldl (fun sum p => sum + p.2.observations.length) a
      = a + (l.map (fun p => p.2.observations.length)).sum := by
  induction l generalizing a with
  | nil => simp
  | cons p rest ih => simp [ih, Nat.add_assoc]

/-- C8: `readGraph` reports the number of entries of the entities map,
the length of the relations sequence, and the sum of the lengths of the
observation lists, together with the verbatim snapshot; on the spec's
example (2 entities holding 3 and 1 observations, 4 relations) the
stats are `entities:2, relations:4, totalObservations:4`. -/
theorem C8_readGraph_stats (g : Graph) :
    readGraph g
      = ({ entities := g.entities.length, relations := g.relations.length,
           totalObservations :=
             (g.entities.map (fun p => p.2.observations.length)).sum }, g)
    ∧ readGraphStats graphStatsEx
        = { entities := 2, relations := 4, totalObservations := 4 } := by
  constructor
  · show (readGraphStats g, g) = _
    rw [Prod.mk.injEq]
    refine ⟨?_, rfl⟩
    rw [GraphStats.mk.injEq]
    exact ⟨rfl, rfl, by simp [readGraphStats, foldl_add_obsLength]⟩
  · rfl

/-! ### Frame lemmas for the append-only invariant -/

theorem createEntitiesGraph_relations (xs : List EntityInput) (now : String) :
    ∀ g : Graph, (createEntitiesGraph g xs now).relations = g.relations := by
  induction xs with
  | nil => intro g; rfl
  | cons i rest ih =>
    intro g
    rw [createEntitiesGraph_cons, ih]
    rfl

theorem applyAddObservation_relations (g : Graph) (o : ObservationInput) :
    (applyAddObservation g o).relations = g.relations := by
  cases h : getKey g.entities o.entityName <;> simp [applyAddObservation, h]

theorem addObservationsGraph_cons (g : Graph) (o : ObservationInput)
    (rest : List ObservationInput) :
    addObservationsGraph g (o :: rest)
      = addObservationsGraph (applyAddObservation g o) rest := rfl

theorem addObservationsGraph_relations (xs : List ObservationInput) :
    ∀ g : Graph, (addObservationsGraph g xs).relations = g.relations := by
  induction xs with
  | nil => intro g; rfl
  | cons o rest ih =>
    intro g
    rw [addObservationsGraph_cons, ih, applyAddObservation_relations]

theorem getKey_createEntitiesGraph_isSome (xs : List EntityInput) (n now : String) :
    ∀ g : Graph, (getKey g.entities n).isSome = true →
      (getKey (createEntitiesGraph g xs now).entities n).isSome = true := by
  induction xs with
  | nil => intro g h; exact h
  | cons i rest ih =>
    intro g h
    rw [createEntitiesGraph_cons]
    apply ih
    show (getKey (setKey g.entities i.name (freshEntity i now)) n).isSome = true
    rw [getKey_setKey]
    split
    · rfl
    · exact h

theorem addObservationsGraph_obs_growth (xs : List ObservationInput) (n : String) :
    ∀ (g : Graph) (e : Entity), getKey g.entities n = some e →
      ∃ e2, getKey (addObservationsGraph g xs).entities n = some e2
        ∧ e.observations <+: e2.observations := by
  induction xs with
  | nil => intro g e h; exact ⟨e, h, List.prefix_rfl⟩
  | cons o rest ih =>
    intro g e h
    rw [addObservationsGraph_cons]
    cases ho : getKey g.entities o.entityName with
    | none =>
      have hg : applyAddObservation g o = g := by simp [applyAddObservation, ho]
      rw [hg]
      exact ih g e h
    | some e' =>
      by_cases hn : n = o.entityName
      · have he : e = e' := by
          rw [hn] at h
          rw [h] at ho
          exact Option.some.inj ho
        have hset : getKey (applyAddObservation g o).entities n
            = some { e' with observations := e'.observations ++ o.contents } := by
          rw [hn]
          simp [applyAddObservation, ho, getKey_setKey_self]
        obtain ⟨e2, h2, hpre⟩ := ih _ _ hset
        refine ⟨e2, h2, ?_⟩
        refine List.IsPrefix.trans ?_ hpre
        rw [he]
        exact List.prefix_append e'.observations o.contents
      · have hkeep : getKey (applyAddObservation g o).entities n = some e := by
          simp [applyAddObservation, ho, getKey_setKey_ne _ _ _ _ hn, h]
        exact ih _ _ hkeep

/-- C9 counterexample: `createEntities` is an exposed operation, yet
re-creating the existing entity `A` (observations `["x"]`) leaves it
with observations `["y"]`, of which `["x"]` is not a prefix — the
old observations are deleted, refuting the claim as stated for
`createEntities`. -/
theorem C9_counterexample :
    getKey graphA.entities "A" = some entA
    ∧ getKey (createEntitiesGraph graphA [inpA2] "t2").entities "A"
        = some { name := "A", entityType := "T2", observations := ["y"],
                 createdAt := "t2" }
    ∧ ¬ (entA.observations <+: ["y"]) := by
  refine ⟨rfl, rfl, ?_⟩
  decide

/-- C9 (amended): relations are append-only (a prefix) across every
mutation, no mutation removes an entity name from the map, and
observation lists are append-only under `addObservations`; for
`createEntities` the lookup of every name not re-created is unchanged.
(The original claim fails only for the observations of an entity
re-created by `createEntities`, which are reset — see the
counterexample.) -/
theorem C9_amended_append_only (g : Graph) (m : Mutation) (now n : String)
    (e : Entity) (xs : List ObservationInput) :
    g.relations <+: ((applyMutation g m now).1).relations
    ∧ (getKey g.entities n = some e →
        ∃ e2, getKey ((applyMutation g m now).1).entities n = some e2)
    ∧ (getKey g.entities n = some e →
        ∃ e2, getKey (addObservationsGraph g xs).entities n = some e2
          ∧ e.observations <+: e2.observations)
    ∧ (∀ ys : List EntityInput, (∀ j ∈ ys, j.name ≠ n) →
        getKey (createEntitiesGraph g ys now).entities n = getKey g.entities n) := by
  refine ⟨?_, ?_, addObservationsGraph_obs_growth xs n g e,
    fun ys hys => getKey_createEntitiesGraph_of_not_named ys n now g hys⟩
  · cases m with
    | create_entities ys =>
      show g.relations <+: (createEntitiesGraph g ys now).relations
      rw [createEntitiesGraph_relations]
    | create_relations ys =>
      exact List.prefix_append _ _
    | add_observations ys =>
      show g.relations <+: (addObservationsGraph g ys).relations
      rw [addObservationsGraph_relations]
  · intro h
    cases m with
    | create_entities ys =>
      have := getKey_createEntitiesGraph_isSome ys n now g (by rw [h]; rfl)
      exact Option.isSome_iff_exists.mp this
    | create_relations ys => exact ⟨e, h⟩
    | add_observations ys =>
      obtain ⟨e2, h2, _⟩ := addObservationsGraph_obs_growth ys n g e h
      exact ⟨e2, h2⟩

/-- C9 witness (for the amended claim): on `graphA`, creating a
relation keeps the old relation list as a prefix, and adding
observation `z` to `A` keeps `["x"]` a prefix of the grown list. -/
theorem C9_amended_witness :
    graphA.relations
      <+: ((applyMutation graphA (Mutation.create_relations [relInpAB]) "t3").1).relations
    ∧ (∃ e2, getKey (addObservationsGraph graphA [obsZ]).entities "A" = some e2
        ∧ entA.observations <+: e2.observations) := by
  have h := C9_amended_append_only graphA (Mutation.create_relations [relInpAB])
    "t3" "A" entA [obsZ]
  exact ⟨h.1, h.2.2.1 (by rfl)⟩

/-! ### Dispatcher theorems -/

/-- C5: a request naming an operation outside the supported surface
gets a caught error response whose text contains the offending name,
with the memory untouched and no save; more generally every thrown
per-request error (unknown tool, missing argument) is converted by the
`try`/`catch` into an ordinary response, so none terminates the run
loop; the reduced server's method dispatcher behaves the same for
unknown method names. -/
theorem C5_unknown_operation (g : Graph) (req : ToolRequest) (now : String)
    (h : req.name ∉ ["create_entities", "create_relations", "add_observations",
        "search_nodes", "read_graph"]) :
    callToolHandler g req now
      = (g, "Error executing " ++ req.name ++ ": " ++ ("Unknown tool: " ++ req.name),
         false)
    ∧ strIncludes
        ("Error executing " ++ req.name ++ ": " ++ ("Unknown tool: " ++ req.name))
        req.name = true
    ∧ (∀ msg, dispatch g req now = DispatchResult.thrown msg →
        callToolHandler g req now
          = (g, "Error executing " ++ req.name ++ ": " ++ msg, false))
    ∧ (∀ method, method ∉ ["tools/list", "tools/call", "initialize"] →
        handleRequestSimple method = ("Unknown method: " ++ method, true)
          ∧ strIncludes ("Unknown method: " ++ method) method = true) := by
  simp only [List.mem_cons, List.not_mem_nil, or_false, not_or] at h
  obtain ⟨h1, h2, h3, h4, h5⟩ := h
  have hd : dispatch g req now = DispatchResult.thrown ("Unknown tool: " ++ req.name) := by
    simp [dispatch, h1, h2, h3, h4, h5]
  refine ⟨?_, ?_, ?_, ?_⟩
  · simp [callToolHandler, hd]
  · rw [strIncludes]
    apply (hasSub_iff _ _).mpr
    have hdata : ("Error executing " ++ req.name ++ ": "
          ++ ("Unknown tool: " ++ req.name)).data
        = ("Error executing ".data ++ req.name.data ++ ": ".data
            ++ "Unknown tool: ".data) ++ req.name.data := by
      simp [String.data_append, List.append_assoc]
    rw [hdata]
    exact (List.suffix_append _ _).isInfix
  · intro msg hm
    simp [callToolHandler, hm]
  · intro method hm
    simp only [List.mem_cons, List.not_mem_nil, or_false, not_or] at hm
    obtain ⟨m1, m2, m3⟩ := hm
    refine ⟨by simp [handleRequestSimple, m1, m2, m3], ?_⟩
    rw [strIncludes]
    apply (hasSub_iff _ _).mpr
    have hdata : ("Unknown method: " ++ method).data
        = "Unknown method: ".data ++ method.data := by
      simp [String.data_append]
    rw [hdata]
    exact (List.suffix_append _ _).isInfix

/-- C5 witness: the unknown tool `delete_graph` yields the caught
error text containing its name, with the memory untouched. -/
theorem C5_witness :
    callToolHandler emptyGraph
        { name := "delete_graph", entities := none, relations := none,
          observations := none, query := none } "t"
      = (emptyGraph,
         "Error executing " ++ "delete_graph" ++ ": "
           ++ ("Unknown tool: " ++ "delete_graph"), false)
    ∧ strIncludes
        ("Error executing " ++ "delete_graph" ++ ": "
          ++ ("Unknown tool: " ++ "delete_graph")) "delete_graph" = true := by
  have h := C5_unknown_operation emptyGraph
    { name := "delete_graph", entities := none, relations := none,
      observations := none, query := none } "t" (by decide)
  exact ⟨h.1, h.2.1⟩

/-- C10: `search_nodes` and `read_graph` are read-only: the handler
returns the memory object itself (entities, relations and the unused
root observations all unchanged) with the saved-flag `false` — neither
arm calls `saveMemory` — and `readGraph`'s snapshot is the graph
verbatim. -/
theorem C10_search_read_pure (g : Graph) (q now : String) :
    callToolHandler g
        { name := "search_nodes", entities := none, relations := none,
          observations := none, query := some q } now
      = (g, searchNodesMsg g q, false)
    ∧ callToolHandler g
        { name := "read_graph", entities := none, relations := none,
          observations := none, query := none } now
      = (g, readGraphMsg g, false)
    ∧ (readGraph g).2 = g := by
  refine ⟨?_, ?_, rfl⟩
  · simp [callToolHandler, dispatch]
  · simp [callToolHandler, dispatch]

end MemorySrv
